import Mathlib

/-!
Verification of the Expo Metro multi-platform module resolution pipeline
(`packages/@expo/cli/src/start/server/metro/withMetroMultiPlatform.ts`).

The pipeline and its pure helpers are shallowly embedded below. String
predicates that the source expresses as JavaScript regular expressions are
translated to explicit, structurally recursive functions over `List Char`,
so that every definition is executable and kernel-reducible. The Node.js
`path` module (an external collaborator of the pipeline) is modelled in its
posix form for the simple relative segments the pipeline feeds it.
-/

namespace Expo

/-- Substring test on character lists, structurally recursive. An empty
pattern occurs in every list, matching JavaScript `includes`. -/
def listContainsSub (pat : List Char) : List Char → Bool
  | [] => pat.isEmpty
  | c :: t => pat.isPrefixOf (c :: t) || listContainsSub pat t

/-- `containsSub s pat` is true when `pat` occurs contiguously in `s`
(JavaScript `s.includes(pat)`, or an unanchored regex literal). -/
def containsSub (s pat : String) : Bool := listContainsSub pat.data s.data

/-- `strEndsWith s suffix` models an end-anchored regex test such as
`/mjs$/.test(s)`. -/
def strEndsWith (s suffix : String) : Bool := suffix.data.isSuffixOf s.data

/-- `strStartsWith s p` models a start-anchored regex test. -/
def strStartsWith (s p : String) : Bool := p.data.isPrefixOf s.data

/-- Split a character list on the slash character; inverse of joining with
slashes. Never returns the empty list. -/
def splitOnSlash : List Char → List (List Char)
  | [] => [[]]
  | c :: t =>
    match splitOnSlash t with
    | [] => [[c]]
    | h :: r => if c = '/' then [] :: h :: r else (c :: h) :: r

/-- Join path segments with a slash separator. -/
def joinWithSlash : List String → String
  | [] => ""
  | [x] => x
  | x :: xs => x ++ "/" ++ joinWithSlash xs

/-- Modelled from the spec: the external `path.join` primitive (posix), for
the already-normalized relative segments the pipeline passes it. -/
def pathJoin (segments : List String) : String := joinWithSlash segments

/-- Modelled from the spec: the external `path.dirname` primitive (posix). -/
def pathDirname (p : String) : String :=
  match splitOnSlash p.data with
  | [] => "."
  | [_] => "."
  | parts =>
    let d := joinWithSlash (parts.dropLast.map (fun l => String.mk l))
    if d = "" then "/" else d

/-- Drop the longest common prefix of two segment lists. -/
def dropCommonPrefixPair : List String → List String → List String × List String
  | a :: as, b :: bs => if a = b then dropCommonPrefixPair as bs else (a :: as, b :: bs)
  | as, bs => (as, bs)

/-- Modelled from the spec: the external `path.relative` primitive (posix):
walk up from `fromPath` with `..` segments past the common prefix, then down
into `toPath`. -/
def pathRelative (fromPath toPath : String) : String :=
  let fs := ((splitOnSlash fromPath.data).filter (fun l => l ≠ [])).map (fun l => String.mk l)
  let ts := ((splitOnSlash toPath.data).filter (fun l => l ≠ [])).map (fun l => String.mk l)
  let p := dropCommonPrefixPair fs ts
  joinWithSlash (p.1.map (fun _ => "..") ++ p.2)

/-- Source `normalizeSlashes`: replace every backslash with a slash. -/
def normalizeSlashes (p : String) : String :=
  String.mk (p.data.map (fun c => if c = '\\' then '/' else c))

/-- Remainder of the list after the last occurrence of `pat` (none when
`pat` does not occur). Later occurrences are preferred, matching the greedy
regex `/.*pat/`. -/
def afterLastSubAux (pat : List Char) : List Char → Option (List Char)
  | [] => none
  | c :: t =>
    match afterLastSubAux pat t with
    | some r => some r
    | none => if pat.isPrefixOf (c :: t) then some ((c :: t).drop pat.length) else none

/-- Source `.replace(/.*node_modules\//, '')`: drop everything up to and
including the last `node_modules/` (greedy match; module paths contain no
newline). -/
def dropBeforeLastNodeModules (s : String) : String :=
  match afterLastSubAux "node_modules/".data s.data with
  | some r => String.mk r
  | none => s

/-- Source regex `/jsx?$/`: the extension ends in `js` or `jsx`. -/
def isJsExt (e : String) : Bool := strEndsWith e "js" || strEndsWith e "jsx"

/-- The accumulator step of the source `reduce` computing the index of the
last `*.js`-like extension (`-1` when none occurs before). -/
def lastIndexStep (index : Int) (p : Nat × String) : Int :=
  if isJsExt p.2 then (p.1 : Int) else index

/-- Source `getNodejsExtensions`: move all `*.mjs` extensions to the slot
immediately after the last `*.js`/`*.jsx` extension. -/
def getNodejsExtensions (srcExts : List String) : List String :=
  let mjsExts := srcExts.filter (fun ext => strEndsWith ext "mjs")
  let nodejsSourceExtensions := srcExts.filter (fun ext => !strEndsWith ext "mjs")
  let jsIndex : Int := nodejsSourceExtensions.enum.foldl lastIndexStep (-1)
  nodejsSourceExtensions.take (jsIndex + 1).toNat
    ++ mjsExts ++ nodejsSourceExtensions.drop (jsIndex + 1).toNat

/-- JavaScript `ToInt32`: reduce modulo `2^32` into `[-2^31, 2^31)`. -/
def toInt32 (n : Int) : Int :=
  if n % 4294967296 < 2147483648 then n % 4294967296
  else n % 4294967296 - 4294967296

/-- UTF-16 code units of a character, as produced by JavaScript
`charCodeAt` (characters beyond the BMP become a surrogate pair). -/
def utf16CodeUnits (c : Char) : List Nat :=
  let n := c.toNat
  if n < 65536 then [n]
  else [55296 + (n - 65536) / 1024, 56320 + (n - 65536) % 1024]

/-- The UTF-16 code unit sequence of a string. -/
def jsCharCodes (s : String) : List Nat :=
  (s.data.map utf16CodeUnits).flatten

/-- One step of the source `fastHash` loop:
`hash = ((hash << 5) - hash + str.charCodeAt(i)) | 0`. The shift of an
int32 wraps to int32; the subtraction and addition are exact in a double;
`| 0` truncates back to int32. -/
def fastHashStep (hash : Int) (c : Nat) : Int :=
  toInt32 (toInt32 (hash * 32) - hash + c)

/-- Source `fastHash`: a deterministic 32-bit accumulator over the code
units of the string. -/
def fastHash (str : String) : Int :=
  (jsCharCodes str).foldl fastHashStep 0

/-- Source `fastHashMemoized = memoize(fastHash)`. Modelled from the spec:
`memoize` (utils/fn, not under src/) is a process-wide cache keyed by the
argument, semantically the identity wrapper. -/
def fastHashMemoized (str : String) : Int := fastHash str

/-- Modelled from the spec: the reserved synthetic-modules subtree under the
project root (externals module constant, not under src/). -/
def METRO_EXTERNALS_FOLDER : String := ".expo/metro/externals"

/-- Modelled from the spec: the static web shims subtree under the project
root (externals module constant, not under src/). -/
def METRO_SHIMS_FOLDER : String := ".expo/metro/shims"

/-- Modelled from the spec: the vendored React canary subtree under the
project root (externals module constant, not under src/). -/
def REACT_CANARY_FOLDER : String := ".expo/metro/canary"

/-! ## Data model of a resolution request and its outcome -/

/-- The custom resolver options carried by the resolution context
(environment tag, export flag, client-boundary flag). -/
structure CustomResolverOptions where
  environment : Option String
  exporting : Bool
  clientboundary : Bool
deriving DecidableEq

/-- The per-request resolution context (requesting file, resolver options,
dev-mode flag). The underlying resolver function carried by Metro contexts
is stripped before the base resolver is invoked, so it is not a field here. -/
structure ResolutionContext where
  originModulePath : String
  customResolverOptions : CustomResolverOptions
  dev : Bool
deriving DecidableEq

/-- The metro-resolver `Resolution` tagged union. -/
inductive Resolution where
  | sourceFile (filePath : String)
  | assetFiles (filePaths : List String)
  | empty
deriving DecidableEq

/-- Errors a resolution attempt can raise. `failedToResolveName` and
`failedToResolvePath` model the two resolution-failure classes recognized by
`isFailedToResolveNameError` / `isFailedToResolvePathError` (metroErrors,
not under src/, modelled from the spec); `invalidExternal` models the
`CommandError` the custom-externals step raises on an unrecognized replace
kind; `otherFailure` is any other error class. -/
inductive ResolveError where
  | failedToResolveName (moduleName : String)
  | failedToResolvePath (moduleName : String)
  | invalidExternal (replaceKind moduleName : String)
  | otherFailure (message : String)
deriving DecidableEq

/-- Modelled from the spec: the optional-resolve error classification
(`isFailedToResolveNameError(error) || isFailedToResolvePathError(error)`). -/
def isResolutionError : ResolveError → Bool
  | .failedToResolveName _ => true
  | .failedToResolvePath _ => true
  | _ => false

/-- A custom resolver strategy: `null` (`none`) means no decision and the
pipeline falls through; an error propagates. -/
abbrev Resolver :=
  ResolutionContext → String → Option String → Except ResolveError (Option Resolution)

/-- A declared external rule: a predicate over the request and a replace
kind (at runtime a plain string, recognized kinds being `empty`, `node`,
`weak`). -/
structure ExternalRule where
  ruleMatches : ResolutionContext → String → Option String → Bool
  replace : String

/-- A universal alias: a regex matcher returning the JavaScript match array
(full match at index 0, capture groups after it), and a replacement
template with `$n` references. -/
structure UniversalAlias where
  matchCaptures : String → Option (List String)
  template : String

/-- The environment a concrete pipeline instance closes over: the
underlying primitive resolver, the (hot-swappable) tsconfig-paths resolve
function, the alias and external rule tables, project paths, and the
file-existence probe used by post-resolution shim lookup. -/
structure ResolverEnv where
  baseResolve : ResolutionContext → String → Option String → Except ResolveError Resolution
  tsConfigResolve : Option (ResolutionContext → String → Option String →
    Except ResolveError (Option Resolution))
  universalAliases : List UniversalAlias
  externals : List ExternalRule
  projectRoot : String
  assetRegistryPath : String
  fileExists : String → Bool
  isReactCanaryEnabled : Bool

/-- Source `getStrictResolver`: strip the custom `resolveRequest` from the
context and invoke the underlying resolver. -/
def getStrictResolver (env : ResolverEnv) (ctx : ResolutionContext)
    (platform : Option String) (moduleName : String) : Except ResolveError Resolution :=
  env.baseResolve ctx moduleName platform

/-- Source `getOptionalResolver`: a strict resolve whose resolution-failure
errors are swallowed into `none`; any other error class is rethrown. -/
def getOptionalResolver (env : ResolverEnv) (ctx : ResolutionContext)
    (platform : Option String) (moduleName : String) :
    Except ResolveError (Option Resolution) :=
  match getStrictResolver env ctx platform moduleName with
  | .ok r => .ok (some r)
  | .error e => if isResolutionError e then .ok none else .error e

/-! ## Node.js externals classification (externals module) -/

/-- Modelled from the spec: the list of built-in Node.js runtime module
names recognized by the externals module (not under src/). -/
def NODE_STDLIB_MODULES : List String :=
  ["assert", "async_hooks", "buffer", "child_process", "cluster", "console",
   "constants", "crypto", "dgram", "dns", "domain", "events", "fs", "http",
   "http2", "https", "inspector", "module", "net", "os", "path",
   "perf_hooks", "process", "punycode", "querystring", "readline", "repl",
   "stream", "string_decoder", "timers", "tls", "tty", "url", "util", "v8",
   "vm", "worker_threads", "zlib"]

/-- Modelled from the spec: `isNodeExternal` (externals module, not under
src/) — strip an optional `node:` scheme and return the module id when the
specifier names a built-in runtime module. -/
def isNodeExternal (moduleName : String) : Option String :=
  match moduleName.data with
  | 'n' :: 'o' :: 'd' :: 'e' :: ':' :: rest =>
    if NODE_STDLIB_MODULES.contains (String.mk rest) then some (String.mk rest) else none
  | _ => if NODE_STDLIB_MODULES.contains moduleName then some moduleName else none

/-- Modelled from the spec: `getNodeExternalModuleId` (externals module, not
under src/) — the canonical external-module redirect specifier for a
built-in `moduleId`, expressed relative to the requesting file. -/
def getNodeExternalModuleId (fromModule moduleId : String) : String :=
  pathRelative (pathDirname fromModule)
    (pathJoin [METRO_EXTERNALS_FOLDER, "node", moduleId, "index.js"])

/-- Modelled from the spec: `isServerEnvironment` (metroOptions middleware,
not under src/) — the server-like environments are `node` and
`react-server`. -/
def isServerEnvironment (environment : Option String) : Bool :=
  environment == some "node" || environment == some "react-server"

/-! ## Strategy 1: dev-only production-module skip -/

/-- Source regex `/([\\/]ReactFabric|ReactNativeRenderer)-prod/` on the
specifier (unanchored search; the separator alternative applies only to the
ReactFabric branch). -/
def matchReactNativeRendererProd (name : String) : Bool :=
  containsSub name "/ReactFabric-prod" || containsSub name "\\ReactFabric-prod"
    || containsSub name "ReactNativeRenderer-prod"

/-- Source regex `/[\\/]node_modules[\\/]react-native[\\/]/` on the
requesting file path (every separator may be a slash or a backslash). -/
def matchNodeModulesReactNative (p : String) : Bool :=
  ["/", "\\"].any fun a => ["/", "\\"].any fun b => ["/", "\\"].any fun c =>
    containsSub p (a ++ "node_modules" ++ b ++ "react-native" ++ c)

/-- Source regex `/\.production(\.min)?\.js$/` on the specifier. -/
def matchProductionJs (name : String) : Bool :=
  strEndsWith name ".production.js" || strEndsWith name ".production.min.js"

/-- Source regex `/[\\/]node_modules[\\/](react[-\\/]|scheduler[\\/])/` on
the requesting file path. -/
def matchNodeModulesReactOrScheduler (p : String) : Bool :=
  ["/", "\\"].any fun a => ["/", "\\"].any fun b =>
    (["-", "/", "\\"].any fun c =>
      containsSub p (a ++ "node_modules" ++ b ++ "react" ++ c)) ||
    (["/", "\\"].any fun c =>
      containsSub p (a ++ "node_modules" ++ b ++ "scheduler" ++ c))

/-- The first custom resolver: in dev mode, short-circuit known
production-only React build artifacts to an empty module; outside dev mode
it never decides. -/
def devProductionSkipResolver : Resolver := fun ctx name platform =>
  .ok <|
    if !ctx.dev then none
    else if (decide (platform ≠ some "web")
          && matchNodeModulesReactNative ctx.originModulePath
          && matchReactNativeRendererProd name)
        || (matchProductionJs name
          && matchNodeModulesReactOrScheduler ctx.originModulePath) then
      some .empty
    else none

/-! ## Strategy 2: tsconfig paths -/

/-- The tsconfig-paths custom resolver: delegate to the active resolve
function when one is installed (`tsConfigResolve?.(...) ?? null`), else no
decision. -/
def tsconfigPathsResolver (env : ResolverEnv) : Resolver := fun ctx name platform =>
  match env.tsConfigResolve with
  | none => .ok none
  | some f => f ctx name platform

/-- The tsconfig reload data: the `compilerOptions.paths` alias map and the
`baseUrl`. -/
structure TsConfigPathsData where
  paths : List (String × List String)
  baseUrl : Option String

/-- Modelled from the spec: `resolveWithTsConfigPaths` bound to an active
alias map — try each declared replacement for an exactly matching pattern
through the optional resolver; first hit wins. Only its existence matters
to the claims below. -/
def mkTsConfigResolve (cfg : TsConfigPathsData) (env : ResolverEnv) : Resolver :=
  fun ctx name platform =>
    match (cfg.paths.lookup name).getD [] with
    | [] => .ok none
    | candidate :: _ => getOptionalResolver env ctx platform candidate

/-- The reload-handler decision (source `configWatcher.startObserving`
callback): after a reload, paths support is enabled only when the reloaded
config has a non-empty `paths` map; otherwise the resolve function becomes
null. -/
def reloadedTsConfigResolve (env : ResolverEnv) :
    Option TsConfigPathsData → Option Resolver
  | some cfg => if cfg.paths.isEmpty then none else some (mkTsConfigResolve cfg env)
  | none => none

/-! ## Strategy 3: Node.js externals -/

/-- The Node.js externals custom resolver: in server environments a
built-in specifier is strictly redirected to its canonical external-module
specifier; in browser/native environments an optional resolve is attempted,
a miss yielding no decision on native platforms (preserving the error) and
an empty module on web. -/
def nodeExternalsResolver (env : ResolverEnv) : Resolver := fun ctx name platform =>
  let isServer := ctx.customResolverOptions.environment == some "node"
    || ctx.customResolverOptions.environment == some "react-server"
  match isNodeExternal name with
  | none => .ok none
  | some moduleId =>
    if !isServer then
      match getOptionalResolver env ctx platform name with
      | .error e => .error e
      | .ok result =>
        if result.isNone && platform != some "web" then .ok none
        else .ok (some (result.getD .empty))
    else
      match getStrictResolver env ctx platform
          (getNodeExternalModuleId ctx.originModulePath moduleId) with
      | .ok r => .ok (some r)
      | .error e => .error e

/-! ## Strategy 4: custom externals -/

/-- The apostrophe character, used inside generated stub sources. -/
def apos : String := String.mk [Char.ofNat 39]

/-- The generated weak-reference stub source for an externalized module:
`module.exports=/*<n>*/__r(require.resolveWeak(<quoted n>))`. -/
def weakStubContents (moduleName : String) : String :=
  "module.exports=/*" ++ moduleName ++ "*/__r(require.resolveWeak("
    ++ apos ++ moduleName ++ apos ++ "))"

/-- The generated Node.js pass-through stub source for an externalized
module: `module.exports=$$require_external(<quoted n>)`. -/
def nodeStubContents (moduleName : String) : String :=
  "module.exports=$$require_external(" ++ apos ++ moduleName ++ apos ++ ")"

/-- The absolute path of the synthesized stub holding `contents`: a
hash-named directory under the reserved externals folder of the project
root, containing an `index.js` module. -/
def stubAbsolutePath (projectRoot contents : String) : String :=
  pathJoin [projectRoot, METRO_EXTERNALS_FOLDER,
    toString (fastHashMemoized contents), "index.js"]

/-- The stub contents chosen for a replace kind (`weak` or `node`). -/
def stubContentsFor (kind moduleName : String) : String :=
  if kind = "weak" then weakStubContents moduleName else nodeStubContents moduleName

/-- The loop of the custom-externals resolver: evaluate the declared rules
in order; the first whose predicate matches decides — `empty` yields an
empty module, `weak`/`node` synthesize a redirect stub and strictly resolve
its path relative to the requesting file, and any other replace kind raises
a `CommandError`. The registry insertion (`tapVirtualModuleMemoized`) is an
idempotent side effect that does not alter the returned resolution. -/
def resolveCustomExternal (env : ResolverEnv) (ctx : ResolutionContext)
    (name : String) (platform : Option String) :
    List ExternalRule → Except ResolveError (Option Resolution)
  | [] => .ok none
  | rule :: rest =>
    if rule.ruleMatches ctx name platform then
      if rule.replace = "empty" then .ok (some .empty)
      else if rule.replace = "weak" then
        let contents := weakStubContents name
        let absoluteFilePath := stubAbsolutePath env.projectRoot contents
        let redirectedModuleName :=
          pathRelative (pathDirname ctx.originModulePath) absoluteFilePath
        match getStrictResolver env ctx platform redirectedModuleName with
        | .ok r => .ok (some r)
        | .error e => .error e
      else if rule.replace = "node" then
        let contents := nodeStubContents name
        let absoluteFilePath := stubAbsolutePath env.projectRoot contents
        let redirectedModuleName :=
          pathRelative (pathDirname ctx.originModulePath) absoluteFilePath
        match getStrictResolver env ctx platform redirectedModuleName with
        | .ok r => .ok (some r)
        | .error e => .error e
      else .error (.invalidExternal rule.replace name)
    else resolveCustomExternal env ctx name platform rest

/-- The custom-externals custom resolver over the declared rule table. -/
def customExternalsResolver (env : ResolverEnv) : Resolver := fun ctx name platform =>
  resolveCustomExternal env ctx name platform env.externals

/-- Source regex of the first declared external rule in `react-server`
environments (anchored alternation). -/
def reactServerExternalsTest (m : String) : Bool :=
  m == "source-map-support" || strStartsWith m "source-map-support/"
    || (strStartsWith m "@babel/runtime/" && m.length > 15)
    || m == "debug" || m == "metro-runtime/src/modules/HMRClient" || m == "metro"
    || m == "acorn-loose" || m == "acorn" || m == "chalk" || m == "ws"
    || m == "ansi-styles" || m == "supports-color" || m == "color-convert"
    || m == "has-flag" || m == "utf-8-validate" || m == "color-name"
    || m == "react-refresh/runtime"
    || (strStartsWith m "@remix-run/node/" && m.length > 16)

/-- Source regex of the first declared external rule in standard Node.js
environments (anchored alternation). -/
def nodeEnvExternalsTest (m : String) : Bool :=
  m == "source-map-support" || strStartsWith m "source-map-support/"
    || m == "react" || m == "react-helmet-async"
    || (strStartsWith m "@radix-ui/" && m.length > 10)
    || (strStartsWith m "@babel/runtime/" && m.length > 15)
    || m == "react-dom" || (strStartsWith m "react-dom/" && m.length > 10)
    || m == "debug" || m == "acorn-loose" || m == "acorn"
    || (strStartsWith m "css-in-js-utils/lib/" && m.length > 20)
    || m == "hyphenate-style-name" || m == "color" || m == "color-string"
    || m == "color-convert" || m == "color-name" || m == "fontfaceobserver"
    || m == "fast-deep-equal" || m == "query-string" || m == "escape-string-regexp"
    || m == "invariant" || m == "postcss-value-parser" || m == "memoize-one"
    || m == "nullthrows" || m == "strict-uri-encode" || m == "decode-uri-component"
    || m == "split-on-first" || m == "filter-obj" || m == "warn-once"
    || m == "simple-swizzle" || m == "is-arrayish"
    || (strStartsWith m "inline-style-prefixer/" && m.length > 22)

/-- Predicate of the first declared external rule: only in non-export,
server-like environments, against the environment-specific module list. -/
def nodeExternalsPredicate (ctx : ResolutionContext) (name : String)
    (_platform : Option String) : Bool :=
  if ctx.customResolverOptions.exporting
      || !isServerEnvironment ctx.customResolverOptions.environment then false
  else if ctx.customResolverOptions.environment == some "react-server" then
    reactServerExternalsTest name
  else nodeEnvExternalsTest name

/-- Source regex of the second declared external rule (anchored
alternation for client-boundary async chunk externs). -/
def clientBoundaryExternalsTest (m : String) : Bool :=
  m == "styleq" || (strStartsWith m "styleq/" && m.length > 7)
    || m == "deprecated-react-native-prop-types" || m == "invariant"
    || m == "nullthrows" || m == "memoize-one"
    || m == "@react-native/assets-registry/registry"
    || m == "@react-native/normalize-color"
    || m == "react" || m == "react/jsx-dev-runtime" || m == "scheduler"
    || m == "react-is" || m == "expo-modules-core" || m == "react-native"
    || m == "react-dom" || (strStartsWith m "react-dom/" && m.length > 10)
    || m == "metro-runtime" || (strStartsWith m "metro-runtime/" && m.length > 14)
    || m == "react-native-web/dist/exports/Platform"
    || m == "react-native-web/dist/exports/NativeEventEmitter"
    || m == "react-native-web/dist/exports/StyleSheet"
    || m == "react-native-web/dist/exports/NativeModules"
    || m == "react-native-web/dist/exports/DeviceEventEmitter"
    || m == "react-native-web/dist/exports/Text"
    || m == "react-native-web/dist/exports/View"
    || m == "@babel/runtime/helpers/wrapNativeSuper"

/-- Predicate of the second declared external rule: only in non-export,
non-server, client-boundary contexts. -/
def clientBoundaryPredicate (ctx : ResolutionContext) (name : String)
    (_platform : Option String) : Bool :=
  if ctx.customResolverOptions.exporting
      || isServerEnvironment ctx.customResolverOptions.environment
      || !ctx.customResolverOptions.clientboundary then false
  else clientBoundaryExternalsTest name

/-- The two external rules declared by `withExtendedResolver`. -/
def declaredExternals : List ExternalRule :=
  [⟨nodeExternalsPredicate, "node"⟩, ⟨clientBoundaryPredicate, "weak"⟩]

/-! ## Strategy 5: alias table -/

/-- The declared platform-exact alias table: on web, `react-native` and
`react-native/index` map to `react-native-web`. -/
def aliases : List (String × List (String × String)) :=
  [("web", [("react-native", "react-native-web"),
            ("react-native/index", "react-native-web")])]

/-- `aliases[platform][moduleName]` with the truthiness guards of the
source (`platform && platform in aliases && aliases[platform][moduleName]`). -/
def lookupAlias (platform : Option String) (moduleName : String) : Option String :=
  match platform with
  | none => none
  | some p =>
    match aliases.lookup p with
    | none => none
    | some table => table.lookup moduleName

/-- Decimal value of a digit list (the `parseInt(index, 10)` of a `$n`
template reference). -/
def digitsToNat (ds : List Char) : Nat :=
  ds.foldl (fun n c => n * 10 + (c.toNat - 48)) 0

/-- Apply a replacement template to a match array:
`alias.replace(/\$(\d+)/g, (_, index) => match[parseInt(index, 10)] ?? '')`.
The fuel argument (initially the template length, an upper bound on the
number of steps) keeps the recursion structural. -/
def applyTemplateAux (caps : List String) : Nat → List Char → List Char
  | _, [] => []
  | 0, l => l
  | fuel + 1, c :: rest =>
    if c = '$' then
      let ds := rest.takeWhile Char.isDigit
      if ds.isEmpty then c :: applyTemplateAux caps fuel rest
      else (caps.getD (digitsToNat ds) "").data
        ++ applyTemplateAux caps fuel (rest.drop ds.length)
    else c :: applyTemplateAux caps fuel rest

/-- String form of `applyTemplateAux`. -/
def applyTemplate (template : String) (caps : List String) : String :=
  String.mk (applyTemplateAux caps template.data.length template.data)

/-- The ordered universal-alias scan: first matching pattern wins and its
template is resolved strictly. -/
def resolveUniversalAlias (env : ResolverEnv) (ctx : ResolutionContext)
    (name : String) (platform : Option String) :
    List UniversalAlias → Except ResolveError (Option Resolution)
  | [] => .ok none
  | ua :: rest =>
    match ua.matchCaptures name with
    | some caps =>
      match getStrictResolver env ctx platform (applyTemplate ua.template caps) with
      | .ok r => .ok (some r)
      | .error e => .error e
    | none => resolveUniversalAlias env ctx name platform rest

/-- The alias custom resolver: the platform-exact table is consulted first;
only when it misses are the ordered universal regex aliases scanned. -/
def basicAliasResolver (env : ResolverEnv) : Resolver := fun ctx name platform =>
  match lookupAlias platform name with
  | some redirectedModuleName =>
    match getStrictResolver env ctx platform redirectedModuleName with
    | .ok r => .ok (some r)
    | .error e => .error e
  | none => resolveUniversalAlias env ctx name platform env.universalAliases

/-- The matcher of the one declared universal alias,
`/^react-native-vector-icons(\/.*)?/` (unanchored at the end; the optional
group captures from the slash to the end of the specifier, and an unmatched
group reads back as the empty string). Module names contain no newline. -/
def vectorIconsMatcher (name : String) : Option (List String) :=
  if strStartsWith name "react-native-vector-icons" then
    let rest := String.mk (name.data.drop 25)
    if strStartsWith rest "/" then some [name, rest]
    else some ["react-native-vector-icons", ""]
  else none

/-- The declared universal alias table:
`react-native-vector-icons` → `@expo/vector-icons` (declared whenever
`@expo/vector-icons` is installed, which the spec notes is always the case). -/
def declaredUniversalAliases : List UniversalAlias :=
  [⟨vectorIconsMatcher, "@expo/vector-icons$1"⟩]

/-! ## Strategies 6 and 7: event-target-shim hack, fallback and
post-resolution rewrites -/

/-- The narrowly-scoped `event-target-shim` compatibility rewrite on
non-web platforms. -/
def eventTargetShimResolver (env : ResolverEnv) : Resolver := fun ctx name platform =>
  if platform != some "web" && name == "event-target-shim" then
    match getStrictResolver env ctx platform
        "event-target-shim/dist/event-target-shim.js" with
    | .ok r => .ok (some r)
    | .error e => .error e
  else .ok none

/-- Source `shouldAliasAssetRegistryForWeb`. -/
def shouldAliasAssetRegistryForWeb (platform : Option String)
    (result : Resolution) : Bool :=
  platform == some "web" &&
    match result with
    | .sourceFile filePath =>
      strEndsWith (normalizeSlashes filePath)
        "react-native-web/dist/modules/AssetRegistry/index.js"
    | _ => false

/-- The shims folder under the project root. -/
def shimsFolder (env : ResolverEnv) : String :=
  pathJoin [env.projectRoot, METRO_SHIMS_FOLDER]

/-- The React canary folder under the project root. -/
def canaryFolder (env : ResolverEnv) : String :=
  pathJoin [env.projectRoot, REACT_CANARY_FOLDER]

/-- The final strategy: fall back to the underlying resolver, then rewrite
source-file results — on web the asset-registry redirect and on-disk static
shims, on native the canary overrides when that experimental mode is on. -/
def postResolutionResolver (env : ResolverEnv) : Resolver := fun ctx name platform =>
  match getStrictResolver env ctx platform name with
  | .error e => .error e
  | .ok result =>
    match result with
    | .sourceFile filePath =>
      if platform == some "web" then
        let fp1 := if shouldAliasAssetRegistryForWeb platform (.sourceFile filePath)
          then env.assetRegistryPath else filePath
        let fp2 := if containsSub fp1 "node_modules" then
            let normalName := dropBeforeLastNodeModules (normalizeSlashes fp1)
            let shimPath := pathJoin [shimsFolder env, normalName]
            if env.fileExists shimPath then shimPath else fp1
          else fp1
        .ok (some (.sourceFile fp2))
      else
        if env.isReactCanaryEnabled && containsSub filePath "node_modules" then
          let normalName := dropBeforeLastNodeModules (normalizeSlashes filePath)
          let shimPath := pathJoin [canaryFolder env, normalName]
          if env.fileExists shimPath then .ok (some (.sourceFile shimPath))
          else .ok (some (.sourceFile filePath))
        else .ok (some (.sourceFile filePath))
    | other => .ok (some other)

/-! ## The orchestrator -/

/-- Modelled from the spec: the orchestrator (`withMetroResolvers`, not
under src/) evaluates the custom resolvers in priority order; the first
non-null decision wins and a raised error propagates immediately. -/
def runResolvers :
    List Resolver → ResolutionContext → String → Option String →
    Except ResolveError (Option Resolution)
  | [], _, _, _ => .ok none
  | r :: rs, ctx, name, platform =>
    match r ctx name platform with
    | .error e => .error e
    | .ok (some res) => .ok (some res)
    | .ok none => runResolvers rs ctx name platform

/-- The ordered strategy chain installed by `withExtendedResolver`. -/
def expoResolvers (env : ResolverEnv) : List Resolver :=
  [devProductionSkipResolver, tsconfigPathsResolver env, nodeExternalsResolver env,
   customExternalsResolver env, basicAliasResolver env, eventTargetShimResolver env,
   postResolutionResolver env]

/-- The whole resolution pipeline for one environment. -/
def resolvePipeline (env : ResolverEnv) : Resolver := fun ctx name platform =>
  runResolvers (expoResolvers env) ctx name platform

/-! ## C9: `getNodejsExtensions` reorders `mjs` after the last `js` slot -/

theorem foldl_lastIndexStep_no_js (l : List String) (n : Nat) (acc : Int)
    (h : ∀ e ∈ l, isJsExt e = false) :
    (List.enumFrom n l).foldl lastIndexStep acc = acc := by
  induction l generalizing n acc with
  | nil => rfl
  | cons x xs ih =>
    have hx : isJsExt x = false := h x (List.mem_cons_self x xs)
    rw [List.enumFrom_cons, List.foldl_cons,
      show lastIndexStep acc (n, x) = acc by simp [lastIndexStep, hx]]
    exact ih (n + 1) acc (fun e he => h e (List.mem_cons_of_mem x he))

theorem foldl_lastIndexStep_last_js (l : List String) :
    ∀ (n : Nat) (acc : Int) (i : Nat) (hi : i < l.length),
    isJsExt (l.get ⟨i, hi⟩) = true →
    (∀ j (hj : j < l.length), i < j → isJsExt (l.get ⟨j, hj⟩) = false) →
    (List.enumFrom n l).foldl lastIndexStep acc = ((n + i : Nat) : Int) := by
  induction l with
  | nil => intro n acc i hi; exact absurd hi (by simp)
  | cons x xs ih =>
    intro n acc i hi hjs hlast
    rw [List.enumFrom_cons, List.foldl_cons]
    cases i with
    | zero =>
      have hx : isJsExt x = true := hjs
      rw [show lastIndexStep acc (n, x) = (n : Int) by simp [lastIndexStep, hx]]
      rw [foldl_lastIndexStep_no_js xs (n + 1) (n : Int) ?_]
      · norm_num
      · intro e he
        obtain ⟨⟨j, hj⟩, rfl⟩ := List.mem_iff_get.mp he
        exact hlast (j + 1) (Nat.succ_lt_succ hj) (Nat.succ_pos j)
    | succ k =>
      have hk : k < xs.length := Nat.lt_of_succ_lt_succ hi
      have hx' : isJsExt (xs.get ⟨k, hk⟩) = true := hjs
      have hl' : ∀ j (hj : j < xs.length), k < j → isJsExt (xs.get ⟨j, hj⟩) = false :=
        fun j hj hkj => hlast (j + 1) (Nat.succ_lt_succ hj) (Nat.succ_lt_succ hkj)
      rw [ih (n + 1) (lastIndexStep acc (n, x)) k hk hx' hl']
      congr 1
      omega

theorem getNodejsExtensions_unfold (l : List String) :
    getNodejsExtensions l =
      (l.filter (fun e => !strEndsWith e "mjs")).take
          (((l.filter (fun e => !strEndsWith e "mjs")).enum.foldl lastIndexStep (-1)) + 1).toNat
        ++ l.filter (fun e => strEndsWith e "mjs")
        ++ (l.filter (fun e => !strEndsWith e "mjs")).drop
          (((l.filter (fun e => !strEndsWith e "mjs")).enum.foldl lastIndexStep (-1)) + 1).toNat :=
  rfl

theorem splice_perm (mjs rest : List String) (k : Nat) :
    (rest.take k ++ mjs ++ rest.drop k).Perm (mjs ++ rest) := by
  refine ((List.perm_append_comm).append_right _).trans ?_
  rw [List.append_assoc, List.take_append_drop]

/-- C9: `getNodejsExtensions` returns a permutation of its input in which
the relative order of the non-mjs extensions (and of the mjs extensions) is
preserved, the mjs extensions being inserted immediately after the last
extension ending in `js` or `jsx`, or at the front when no such extension
exists. -/
theorem getNodejsExtensions_spec (srcExts : List String) :
    (getNodejsExtensions srcExts).Perm srcExts ∧
    (getNodejsExtensions srcExts).filter (fun e => !strEndsWith e "mjs")
      = srcExts.filter (fun e => !strEndsWith e "mjs") ∧
    (getNodejsExtensions srcExts).filter (fun e => strEndsWith e "mjs")
      = srcExts.filter (fun e => strEndsWith e "mjs") ∧
    ((∀ e ∈ srcExts.filter (fun e => !strEndsWith e "mjs"), isJsExt e = false) →
      getNodejsExtensions srcExts
        = srcExts.filter (fun e => strEndsWith e "mjs")
          ++ srcExts.filter (fun e => !strEndsWith e "mjs")) ∧
    (∀ i (hi : i < (srcExts.filter (fun e => !strEndsWith e "mjs")).length),
      isJsExt ((srcExts.filter (fun e => !strEndsWith e "mjs")).get ⟨i, hi⟩) = true →
      (∀ j (hj : j < (srcExts.filter (fun e => !strEndsWith e "mjs")).length),
        i < j →
        isJsExt ((srcExts.filter (fun e => !strEndsWith e "mjs")).get ⟨j, hj⟩) = false) →
      getNodejsExtensions srcExts
        = (srcExts.filter (fun e => !strEndsWith e "mjs")).take (i + 1)
          ++ srcExts.filter (fun e => strEndsWith e "mjs")
          ++ (srcExts.filter (fun e => !strEndsWith e "mjs")).drop (i + 1)) := by
  have hmemmjs : ∀ e ∈ srcExts.filter (fun e => strEndsWith e "mjs"),
      strEndsWith e "mjs" = true := fun e he => (List.mem_filter.mp he).2
  have hmemrest : ∀ e ∈ srcExts.filter (fun e => !strEndsWith e "mjs"),
      strEndsWith e "mjs" = false := fun e he => by
    have := (List.mem_filter.mp he).2
    simpa using this
  refine ⟨?_, ?_, ?_, ?_, ?_⟩
  · rw [getNodejsExtensions_unfold]
    exact (splice_perm _ _ _).trans (List.filter_append_perm _ _)
  · rw [getNodejsExtensions_unfold, List.filter_append, List.filter_append]
    have hmjs0 : (srcExts.filter (fun e => strEndsWith e "mjs")).filter
        (fun e => !strEndsWith e "mjs") = [] := by
      rw [List.filter_eq_nil_iff]
      intro e he
      simp [hmemmjs e he]
    rw [hmjs0, List.append_nil, ← List.filter_append, List.take_append_drop,
      List.filter_eq_self]
    intro e he
    simpa using hmemrest e he
  · rw [getNodejsExtensions_unfold, List.filter_append, List.filter_append]
    have htake : ((srcExts.filter (fun e => !strEndsWith e "mjs")).take
        (((srcExts.filter (fun e => !strEndsWith e "mjs")).enum.foldl
          lastIndexStep (-1)) + 1).toNat).filter (fun e => strEndsWith e "mjs") = [] := by
      rw [List.filter_eq_nil_iff]
      intro e he
      simp [hmemrest e (List.take_subset _ _ he)]
    have hdrop : ((srcExts.filter (fun e => !strEndsWith e "mjs")).drop
        (((srcExts.filter (fun e => !strEndsWith e "mjs")).enum.foldl
          lastIndexStep (-1)) + 1).toNat).filter (fun e => strEndsWith e "mjs") = [] := by
      rw [List.filter_eq_nil_iff]
      intro e he
      simp [hmemrest e (List.drop_subset _ _ he)]
    rw [htake, hdrop, List.nil_append, List.append_nil, List.filter_eq_self]
    exact hmemmjs
  · intro hnone
    rw [getNodejsExtensions_unfold]
    rw [show ((srcExts.filter (fun e => !strEndsWith e "mjs")).enum.foldl
        lastIndexStep (-1)) = -1 from foldl_lastIndexStep_no_js _ 0 (-1) hnone]
    norm_num
  · intro i hi hjs hlast
    rw [getNodejsExtensions_unfold]
    rw [show ((srcExts.filter (fun e => !strEndsWith e "mjs")).enum.foldl
        lastIndexStep (-1)) = ((0 + i : Nat) : Int) from
      foldl_lastIndexStep_last_js _ 0 (-1) i hi hjs hlast]
    have : (((0 + i : Nat) : Int) + 1).toNat = i + 1 := by omega
    rw [this]

/-- C9 witness: a concrete run of `getNodejsExtensions`, derived by
instantiating the specification at the last js-like index. -/
theorem getNodejsExtensions_spec_witness :
    getNodejsExtensions ["src.ts", "src.js", "src.mjs", "src.json"]
      = ["src.ts", "src.js", "src.mjs", "src.json"] := by
  have h := (getNodejsExtensions_spec ["src.ts", "src.js", "src.mjs", "src.json"]).2.2.2.2
    1 (by decide) (by decide) (by decide)
  rw [h]
  rfl

/-! ## C10: `fastHash` is a total deterministic int32-valued hash -/

theorem toInt32_range (n : Int) : -2147483648 ≤ toInt32 n ∧ toInt32 n ≤ 2147483647 := by
  unfold toInt32
  have h1 : 0 ≤ n % 4294967296 := Int.emod_nonneg n (by norm_num)
  have h2 : n % 4294967296 < 4294967296 := Int.emod_lt_of_pos n (by norm_num)
  split <;> omega

theorem foldl_fastHashStep_range (l : List Nat) :
    ∀ acc : Int, -2147483648 ≤ acc ∧ acc ≤ 2147483647 →
    -2147483648 ≤ l.foldl fastHashStep acc ∧ l.foldl fastHashStep acc ≤ 2147483647 := by
  induction l with
  | nil => exact fun acc h => h
  | cons c t ih =>
    intro acc _
    rw [List.foldl_cons]
    exact ih (fastHashStep acc c) (toInt32_range _)

/-- C10: `fastHash` is a pure total function into the signed 32-bit range
`[-2^31, 2^31 - 1]`, equal contents always hash equal (so the derived
virtual-module directory name `String(fastHash(contents))` is stable), and
the decimal string may be negative. -/
theorem fastHash_int32_spec (s t : String) :
    (-2147483648 ≤ fastHash s ∧ fastHash s ≤ 2147483647) ∧
    (s = t → fastHash s = fastHash t ∧
      toString (fastHashMemoized s) = toString (fastHashMemoized t)) ∧
    (∃ w : String, fastHash w < 0) := by
  refine ⟨?_, fun h => by rw [h]; exact ⟨rfl, rfl⟩,
    ⟨"abcdefg", by set_option maxRecDepth 8000 in decide⟩⟩
  unfold fastHash
  exact foldl_fastHashStep_range _ 0 (by norm_num)

/-- C10 witness: the specification applied to equal concrete contents. -/
theorem fastHash_int32_spec_witness :
    fastHash "os" = fastHash "os" ∧
    toString (fastHashMemoized "os") = toString (fastHashMemoized "os") :=
  (fastHash_int32_spec "os" "os").2.1 rfl

/-! ## Built-in module names cannot trigger the earlier or later strategies -/

/-- Every specifier form that `isNodeExternal` accepts: a built-in name,
optionally behind the `node:` scheme. -/
def allNodeExternalNames : List String :=
  NODE_STDLIB_MODULES ++ NODE_STDLIB_MODULES.map (fun m => "node:" ++ m)

/-- A specifier is benign when it triggers none of the specifier-keyed
side conditions of the other pipeline strategies. -/
def builtinNameIsBenign (m : String) : Bool :=
  !matchReactNativeRendererProd m && !matchProductionJs m
    && !clientBoundaryExternalsTest m
    && !strStartsWith m "react-native-vector-icons"
    && !(m == "event-target-shim")

theorem allNodeExternalNames_benign :
    allNodeExternalNames.all builtinNameIsBenign = true := by
  set_option maxRecDepth 16000 in decide

theorem isNodeExternal_mem (name id : String) (h : isNodeExternal name = some id) :
    name ∈ allNodeExternalNames := by
  unfold isNodeExternal at h
  split at h
  next rest heq =>
    split at h
    next hc =>
      have hmem : String.mk rest ∈ NODE_STDLIB_MODULES := List.elem_iff.mp hc
      have hname : name = "node:" ++ String.mk rest := by
        apply String.ext
        rw [heq]
        rfl
      rw [hname]
      exact List.mem_append.mpr (Or.inr (List.mem_map.mpr ⟨String.mk rest, hmem, rfl⟩))
    next => exact absurd h (by simp)
  next =>
    split at h
    next hc => exact List.mem_append.mpr (Or.inl (List.elem_iff.mp hc))
    next => exact absurd h (by simp)

theorem builtin_benign (name id : String) (h : isNodeExternal name = some id) :
    matchReactNativeRendererProd name = false ∧ matchProductionJs name = false ∧
    clientBoundaryExternalsTest name = false ∧
    strStartsWith name "react-native-vector-icons" = false ∧
    (name == "event-target-shim") = false := by
  have hb := List.all_eq_true.mp allNodeExternalNames_benign name (isNodeExternal_mem name id h)
  unfold builtinNameIsBenign at hb
  simp only [Bool.and_eq_true, Bool.not_eq_true'] at hb
  exact ⟨hb.1.1.1.1, hb.1.1.1.2, hb.1.1.2, hb.1.2, hb.2⟩

theorem devSkip_ok_none_of_name (ctx : ResolutionContext) (name : String)
    (platform : Option String)
    (h1 : matchReactNativeRendererProd name = false)
    (h2 : matchProductionJs name = false) :
    devProductionSkipResolver ctx name platform = .ok none := by
  unfold devProductionSkipResolver
  simp [h1, h2]

theorem env_not_server_beq (o : Option String) (hn : o ≠ some "node")
    (hr : o ≠ some "react-server") :
    (o == some "node" || o == some "react-server") = false := by
  simp only [Bool.or_eq_false_iff, beq_eq_false_iff_ne, ne_eq]
  exact ⟨hn, hr⟩

theorem runResolvers_cons_none (r : Resolver) (rs : List Resolver)
    (ctx : ResolutionContext) (name : String) (platform : Option String)
    (h : r ctx name platform = .ok none) :
    runResolvers (r :: rs) ctx name platform = runResolvers rs ctx name platform := by
  have hstep : runResolvers (r :: rs) ctx name platform =
      match r ctx name platform with
      | .error e => .error e
      | .ok (some res) => .ok (some res)
      | .ok none => runResolvers rs ctx name platform := rfl
  rw [hstep, h]

theorem runResolvers_cons_some (r : Resolver) (rs : List Resolver)
    (ctx : ResolutionContext) (name : String) (platform : Option String)
    (res : Resolution) (h : r ctx name platform = .ok (some res)) :
    runResolvers (r :: rs) ctx name platform = .ok (some res) := by
  have hstep : runResolvers (r :: rs) ctx name platform =
      match r ctx name platform with
      | .error e => .error e
      | .ok (some res) => .ok (some res)
      | .ok none => runResolvers rs ctx name platform := rfl
  rw [hstep, h]

theorem runResolvers_cons_error (r : Resolver) (rs : List Resolver)
    (ctx : ResolutionContext) (name : String) (platform : Option String)
    (e : ResolveError) (h : r ctx name platform = .error e) :
    runResolvers (r :: rs) ctx name platform = .error e := by
  have hstep : runResolvers (r :: rs) ctx name platform =
      match r ctx name platform with
      | .error e => .error e
      | .ok (some res) => .ok (some res)
      | .ok none => runResolvers rs ctx name platform := rfl
  rw [hstep, h]

theorem nodeExternals_client (env : ResolverEnv) (ctx : ResolutionContext)
    (name id : String) (platform : Option String)
    (hn : ctx.customResolverOptions.environment ≠ some "node")
    (hr : ctx.customResolverOptions.environment ≠ some "react-server")
    (hid : isNodeExternal name = some id) :
    nodeExternalsResolver env ctx name platform =
      match getOptionalResolver env ctx platform name with
      | .error e => .error e
      | .ok result =>
        if result.isNone && platform != some "web" then .ok none
        else .ok (some (result.getD .empty)) := by
  unfold nodeExternalsResolver
  rw [hid]
  have hs := env_not_server_beq _ hn hr
  simp [hs]

/-! ## C4: server environments redirect built-ins to the external module -/

/-- C4: in a `node` or `react-server` environment, a specifier naming a
Node.js built-in resolves to the strict resolution of the canonical
external-module redirect specifier derived from the module id and the
requesting file; no later strategy is consulted. -/
theorem server_env_node_builtin_redirect (env : ResolverEnv) (ctx : ResolutionContext)
    (name id : String) (platform : Option String)
    (hts : env.tsConfigResolve = none)
    (henv : ctx.customResolverOptions.environment = some "node" ∨
      ctx.customResolverOptions.environment = some "react-server")
    (hid : isNodeExternal name = some id) :
    resolvePipeline env ctx name platform
      = Except.map some (env.baseResolve ctx
          (getNodeExternalModuleId ctx.originModulePath id) platform) := by
  have hben := builtin_benign name id hid
  have h1 := devSkip_ok_none_of_name ctx name platform hben.1 hben.2.1
  have h2 : tsconfigPathsResolver env ctx name platform = .ok none := by
    unfold tsconfigPathsResolver
    rw [hts]
  have hs : (ctx.customResolverOptions.environment == some "node"
      || ctx.customResolverOptions.environment == some "react-server") = true := by
    rcases henv with h | h <;> simp [h]
  have h3 : nodeExternalsResolver env ctx name platform
      = Except.map some (env.baseResolve ctx
          (getNodeExternalModuleId ctx.originModulePath id) platform) := by
    unfold nodeExternalsResolver
    rw [hid]
    simp only [hs, Bool.not_true, Bool.false_eq_true, if_false, ite_false]
    cases hb : env.baseResolve ctx (getNodeExternalModuleId ctx.originModulePath id) platform
      <;> simp [getStrictResolver, hb, Except.map]
  unfold resolvePipeline expoResolvers
  rw [runResolvers_cons_none _ _ _ _ _ h1, runResolvers_cons_none _ _ _ _ _ h2]
  cases hb : env.baseResolve ctx (getNodeExternalModuleId ctx.originModulePath id) platform with
  | ok r =>
    rw [runResolvers_cons_some _ _ _ _ _ r (by rw [h3, hb]; rfl)]
    rfl
  | error e =>
    rw [runResolvers_cons_error _ _ _ _ _ e (by rw [h3, hb]; rfl)]
    rfl

/-! ## C3: web client policy for failed optional resolution of built-ins -/

/-- C3: on web, in a non-server environment, a failed optional resolve of a
built-in specifier yields an empty module when the failure is a resolution
error, and propagates unmodified otherwise. -/
theorem node_builtin_client_web_policy (env : ResolverEnv) (ctx : ResolutionContext)
    (name id : String) (e : ResolveError)
    (hts : env.tsConfigResolve = none)
    (hn : ctx.customResolverOptions.environment ≠ some "node")
    (hr : ctx.customResolverOptions.environment ≠ some "react-server")
    (hid : isNodeExternal name = some id)
    (hbase : env.baseResolve ctx name (some "web") = .error e) :
    (isResolutionError e = true →
      resolvePipeline env ctx name (some "web") = .ok (some .empty)) ∧
    (isResolutionError e = false →
      resolvePipeline env ctx name (some "web") = .error e) := by
  have hben := builtin_benign name id hid
  have h1 := devSkip_ok_none_of_name ctx name (some "web") hben.1 hben.2.1
  have h2 : tsconfigPathsResolver env ctx name (some "web") = .ok none := by
    unfold tsconfigPathsResolver
    rw [hts]
  have hcl := nodeExternals_client env ctx name id (some "web") hn hr hid
  constructor
  · intro he
    have hopt : getOptionalResolver env ctx (some "web") name = .ok none := by
      unfold getOptionalResolver getStrictResolver
      simp [hbase, he]
    have h3 : nodeExternalsResolver env ctx name (some "web") = .ok (some .empty) := by
      rw [hcl, hopt]
      rfl
    unfold resolvePipeline expoResolvers
    rw [runResolvers_cons_none _ _ _ _ _ h1, runResolvers_cons_none _ _ _ _ _ h2,
      runResolvers_cons_some _ _ _ _ _ _ h3]
  · intro he
    have hopt : getOptionalResolver env ctx (some "web") name = .error e := by
      unfold getOptionalResolver getStrictResolver
      simp [hbase, he]
    have h3 : nodeExternalsResolver env ctx name (some "web") = .error e := by
      rw [hcl, hopt]
    unfold resolvePipeline expoResolvers
    rw [runResolvers_cons_none _ _ _ _ _ h1, runResolvers_cons_none _ _ _ _ _ h2,
      runResolvers_cons_error _ _ _ _ _ _ h3]

/-! ## C2 (corrected): native platforms fall through and propagate -/

theorem customExternals_declared_none (env : ResolverEnv) (ctx : ResolutionContext)
    (name : String) (platform : Option String)
    (hexts : env.externals = declaredExternals)
    (hns : isServerEnvironment ctx.customResolverOptions.environment = false)
    (hcb : clientBoundaryExternalsTest name = false) :
    customExternalsResolver env ctx name platform = .ok none := by
  have hp1 : nodeExternalsPredicate ctx name platform = false := by
    unfold nodeExternalsPredicate
    simp [hns]
  have hp2 : clientBoundaryPredicate ctx name platform = false := by
    unfold clientBoundaryPredicate
    simp [hns, hcb]
  unfold customExternalsResolver
  rw [hexts]
  unfold declaredExternals
  unfold resolveCustomExternal
  simp only [hp1, Bool.false_eq_true, if_false, ite_false]
  unfold resolveCustomExternal
  simp only [hp2, Bool.false_eq_true, if_false, ite_false]
  rfl

theorem alias_resolver_ios_none (env : ResolverEnv) (ctx : ResolutionContext)
    (name : String)
    (hua : env.universalAliases = declaredUniversalAliases)
    (hvi : strStartsWith name "react-native-vector-icons" = false) :
    basicAliasResolver env ctx name (some "ios") = .ok none := by
  unfold basicAliasResolver
  rw [show lookupAlias (some "ios") name = none from rfl, hua]
  unfold declaredUniversalAliases
  unfold resolveUniversalAlias
  simp only [vectorIconsMatcher, hvi, Bool.false_eq_true, if_false, ite_false]
  rfl

theorem eventTargetShim_none (env : ResolverEnv) (ctx : ResolutionContext)
    (name : String) (platform : Option String)
    (hne : (name == "event-target-shim") = false) :
    eventTargetShimResolver env ctx name platform = .ok none := by
  unfold eventTargetShimResolver
  simp [hne]

/-- C2 amended: with a non-server environment and platform `ios`, when the
optional resolve of a built-in specifier fails with a resolution error, the
Node externals strategy returns no decision (null) — not `Empty` — so the
request falls through, and the pipeline propagates the resolution error
raised by the final strict resolve. -/
theorem node_builtin_client_ios_falls_through (env : ResolverEnv)
    (ctx : ResolutionContext) (name id : String) (e : ResolveError)
    (hts : env.tsConfigResolve = none)
    (hexts : env.externals = declaredExternals)
    (hua : env.universalAliases = declaredUniversalAliases)
    (hn : ctx.customResolverOptions.environment ≠ some "node")
    (hr : ctx.customResolverOptions.environment ≠ some "react-server")
    (hid : isNodeExternal name = some id)
    (he : isResolutionError e = true)
    (hbase : env.baseResolve ctx name (some "ios") = .error e) :
    nodeExternalsResolver env ctx name (some "ios") = .ok none ∧
    resolvePipeline env ctx name (some "ios") = .error e := by
  have hben := builtin_benign name id hid
  have hns : isServerEnvironment ctx.customResolverOptions.environment = false :=
    env_not_server_beq _ hn hr
  have h1 := devSkip_ok_none_of_name ctx name (some "ios") hben.1 hben.2.1
  have h2 : tsconfigPathsResolver env ctx name (some "ios") = .ok none := by
    unfold tsconfigPathsResolver
    rw [hts]
  have hopt : getOptionalResolver env ctx (some "ios") name = .ok none := by
    unfold getOptionalResolver getStrictResolver
    simp [hbase, he]
  have h3 : nodeExternalsResolver env ctx name (some "ios") = .ok none := by
    rw [nodeExternals_client env ctx name id (some "ios") hn hr hid, hopt]
    rfl
  have h4 := customExternals_declared_none env ctx name (some "ios") hexts hns hben.2.2.1
  have h5 := alias_resolver_ios_none env ctx name hua hben.2.2.2.1
  have h6 := eventTargetShim_none env ctx name (some "ios") hben.2.2.2.2
  have h7 : postResolutionResolver env ctx name (some "ios") = .error e := by
    unfold postResolutionResolver getStrictResolver
    rw [hbase]
  refine ⟨h3, ?_⟩
  unfold resolvePipeline expoResolvers
  rw [runResolvers_cons_none _ _ _ _ _ h1, runResolvers_cons_none _ _ _ _ _ h2,
    runResolvers_cons_none _ _ _ _ _ h3, runResolvers_cons_none _ _ _ _ _ h4,
    runResolvers_cons_none _ _ _ _ _ h5, runResolvers_cons_none _ _ _ _ _ h6,
    runResolvers_cons_error _ _ _ _ _ _ h7]

/-! ## Concrete sample environments for witnesses and counterexamples -/

/-- A base resolver that can resolve nothing (an empty project). -/
def failingBase : ResolutionContext → String → Option String → Except ResolveError Resolution :=
  fun _ moduleName _ => .error (.failedToResolveName moduleName)

/-- A base resolver that finds every module inside `node_modules`. -/
def okBase : ResolutionContext → String → Option String → Except ResolveError Resolution :=
  fun _ moduleName _ => .ok (.sourceFile ("/project/node_modules/" ++ moduleName ++ "/index.js"))

/-- A representative pipeline environment with the declared alias and
external tables and no tsconfig paths support. -/
def sampleEnv (base : ResolutionContext → String → Option String →
    Except ResolveError Resolution) : ResolverEnv :=
  { baseResolve := base
    tsConfigResolve := none
    universalAliases := declaredUniversalAliases
    externals := declaredExternals
    projectRoot := "/project"
    assetRegistryPath := "/project/node_modules/@react-native/assets-registry/registry.js"
    fileExists := fun _ => false
    isReactCanaryEnabled := false }

/-- A client (browser) resolution context. -/
def clientCtx : ResolutionContext :=
  { originModulePath := "/project/App.js"
    customResolverOptions :=
      { environment := some "client", exporting := false, clientboundary := true }
    dev := true }

/-- A server (Node.js environment) resolution context. -/
def serverCtx : ResolutionContext :=
  { originModulePath := "/project/App.js"
    customResolverOptions :=
      { environment := some "node", exporting := false, clientboundary := false }
    dev := false }

/-- C2 counterexample: for the built-in specifier `os` in a client
environment on platform `ios`, with no local `os` module, the pipeline does
not resolve to `Empty` — it propagates the resolution failure (the claimed
`Empty`-without-throwing outcome is what platform `web` does, not `ios`). -/
theorem node_builtin_client_ios_counterexample :
    resolvePipeline (sampleEnv failingBase) clientCtx "os" (some "ios")
      = .error (.failedToResolveName "os") ∧
    resolvePipeline (sampleEnv failingBase) clientCtx "os" (some "ios")
      ≠ .ok (some .empty) := by
  have h : resolvePipeline (sampleEnv failingBase) clientCtx "os" (some "ios")
      = .error (.failedToResolveName "os") := rfl
  refine ⟨h, ?_⟩
  rw [h]
  intro hcontra
  exact Except.noConfusion hcontra

/-- C2 witness for the amended theorem, at the concrete failing project. -/
theorem node_builtin_client_ios_falls_through_witness :
    nodeExternalsResolver (sampleEnv failingBase) clientCtx "os" (some "ios") = .ok none ∧
    resolvePipeline (sampleEnv failingBase) clientCtx "os" (some "ios")
      = .error (.failedToResolveName "os") :=
  node_builtin_client_ios_falls_through (sampleEnv failingBase) clientCtx "os" "os"
    (.failedToResolveName "os") rfl rfl rfl (by decide) (by decide) rfl rfl rfl

/-- C3 witness: the concrete `os` specifier on web with no local shim
resolves to `Empty`. -/
theorem node_builtin_client_web_policy_witness :
    resolvePipeline (sampleEnv failingBase) clientCtx "os" (some "web") = .ok (some .empty) :=
  (node_builtin_client_web_policy (sampleEnv failingBase) clientCtx "os" "os"
    (.failedToResolveName "os") rfl (by decide) (by decide) rfl rfl).1 rfl

/-- C4 witness: the concrete `os` specifier in a `node` environment is
redirected to its canonical external module id and strictly resolved. -/
theorem server_env_node_builtin_redirect_witness :
    resolvePipeline (sampleEnv okBase) serverCtx "os" (some "ios")
      = Except.map some ((sampleEnv okBase).baseResolve serverCtx
          (getNodeExternalModuleId serverCtx.originModulePath "os") (some "ios")) :=
  server_env_node_builtin_redirect (sampleEnv okBase) serverCtx "os" "os" (some "ios")
    rfl (Or.inl rfl) rfl

/-! ## First-match behavior of the custom externals loop (C1, C7) -/

theorem resolveCustomExternal_cons_matched (env : ResolverEnv) (ctx : ResolutionContext)
    (name : String) (platform : Option String) (r : ExternalRule) (rest : List ExternalRule)
    (hr : r.ruleMatches ctx name platform = true) :
    resolveCustomExternal env ctx name platform (r :: rest)
      = if r.replace = "empty" then .ok (some .empty)
        else if r.replace = "weak" then
          Except.map some (env.baseResolve ctx
            (pathRelative (pathDirname ctx.originModulePath)
              (stubAbsolutePath env.projectRoot (weakStubContents name))) platform)
        else if r.replace = "node" then
          Except.map some (env.baseResolve ctx
            (pathRelative (pathDirname ctx.originModulePath)
              (stubAbsolutePath env.projectRoot (nodeStubContents name))) platform)
        else .error (.invalidExternal r.replace name) := by
  have hstep : resolveCustomExternal env ctx name platform (r :: rest)
      = if r.ruleMatches ctx name platform then
          if r.replace = "empty" then .ok (some .empty)
          else if r.replace = "weak" then
            match getStrictResolver env ctx platform
                (pathRelative (pathDirname ctx.originModulePath)
                  (stubAbsolutePath env.projectRoot (weakStubContents name))) with
            | .ok x => .ok (some x)
            | .error e => .error e
          else if r.replace = "node" then
            match getStrictResolver env ctx platform
                (pathRelative (pathDirname ctx.originModulePath)
                  (stubAbsolutePath env.projectRoot (nodeStubContents name))) with
            | .ok x => .ok (some x)
            | .error e => .error e
          else .error (.invalidExternal r.replace name)
        else resolveCustomExternal env ctx name platform rest := rfl
  rw [hstep, hr]
  simp only [if_true]
  by_cases h1 : r.replace = "empty"
  · simp [h1]
  · rw [if_neg h1, if_neg h1]
    by_cases h2 : r.replace = "weak"
    · rw [if_pos h2, if_pos h2]
      cases hb : env.baseResolve ctx
          (pathRelative (pathDirname ctx.originModulePath)
            (stubAbsolutePath env.projectRoot (weakStubContents name))) platform <;>
        simp [getStrictResolver, hb, Except.map]
    · rw [if_neg h2, if_neg h2]
      by_cases h3 : r.replace = "node"
      · rw [if_pos h3, if_pos h3]
        cases hb : env.baseResolve ctx
            (pathRelative (pathDirname ctx.originModulePath)
              (stubAbsolutePath env.projectRoot (nodeStubContents name))) platform <;>
          simp [getStrictResolver, hb, Except.map]
      · rw [if_neg h3, if_neg h3]

theorem resolveCustomExternal_cons_unmatched (env : ResolverEnv) (ctx : ResolutionContext)
    (name : String) (platform : Option String) (r : ExternalRule) (rest : List ExternalRule)
    (hr : r.ruleMatches ctx name platform = false) :
    resolveCustomExternal env ctx name platform (r :: rest)
      = resolveCustomExternal env ctx name platform rest := by
  have hstep : resolveCustomExternal env ctx name platform (r :: rest)
      = if r.ruleMatches ctx name platform then
          if r.replace = "empty" then .ok (some .empty)
          else if r.replace = "weak" then
            match getStrictResolver env ctx platform
                (pathRelative (pathDirname ctx.originModulePath)
                  (stubAbsolutePath env.projectRoot (weakStubContents name))) with
            | .ok x => .ok (some x)
            | .error e => .error e
          else if r.replace = "node" then
            match getStrictResolver env ctx platform
                (pathRelative (pathDirname ctx.originModulePath)
                  (stubAbsolutePath env.projectRoot (nodeStubContents name))) with
            | .ok x => .ok (some x)
            | .error e => .error e
          else .error (.invalidExternal r.replace name)
        else resolveCustomExternal env ctx name platform rest := rfl
  rw [hstep, hr]
  simp

theorem resolveCustomExternal_first_match (env : ResolverEnv) (ctx : ResolutionContext)
    (name : String) (platform : Option String) (pre : List ExternalRule)
    (r : ExternalRule) (post : List ExternalRule)
    (hpre : ∀ q ∈ pre, q.ruleMatches ctx name platform = false)
    (hr : r.ruleMatches ctx name platform = true) :
    resolveCustomExternal env ctx name platform (pre ++ r :: post)
      = if r.replace = "empty" then .ok (some .empty)
        else if r.replace = "weak" then
          Except.map some (env.baseResolve ctx
            (pathRelative (pathDirname ctx.originModulePath)
              (stubAbsolutePath env.projectRoot (weakStubContents name))) platform)
        else if r.replace = "node" then
          Except.map some (env.baseResolve ctx
            (pathRelative (pathDirname ctx.originModulePath)
              (stubAbsolutePath env.projectRoot (nodeStubContents name))) platform)
        else .error (.invalidExternal r.replace name) := by
  induction pre with
  | nil =>
    rw [List.nil_append]
    exact resolveCustomExternal_cons_matched env ctx name platform r post hr
  | cons q qs ih =>
    rw [List.cons_append,
      resolveCustomExternal_cons_unmatched env ctx name platform q (qs ++ r :: post)
        (hpre q (List.mem_cons_self q qs))]
    exact ih (fun w hw => hpre w (List.mem_cons_of_mem q hw))

theorem resolveCustomExternal_no_invalid (env : ResolverEnv) (ctx : ResolutionContext)
    (name : String) (platform : Option String)
    (hb : ∀ c m p k mm, env.baseResolve c m p ≠ .error (.invalidExternal k mm)) :
    ∀ l : List ExternalRule,
      (∀ r ∈ l, r.replace = "empty" ∨ r.replace = "node" ∨ r.replace = "weak") →
      ∀ k mm, resolveCustomExternal env ctx name platform l
        ≠ .error (.invalidExternal k mm) := by
  intro l
  induction l with
  | nil =>
    intro _ k mm h
    exact Except.noConfusion h
  | cons r rest ih =>
    intro hl k mm h
    cases hm : r.ruleMatches ctx name platform with
    | false =>
      rw [resolveCustomExternal_cons_unmatched env ctx name platform r rest hm] at h
      exact ih (fun q hq => hl q (List.mem_cons_of_mem _ hq)) k mm h
    | true =>
      rw [resolveCustomExternal_cons_matched env ctx name platform r rest hm] at h
      rcases hl r (List.mem_cons_self r rest) with he | hn | hw
      · simp [he] at h
      · rw [hn] at h
        rw [if_neg (by decide), if_neg (by decide), if_pos rfl] at h
        cases hbb : env.baseResolve ctx
            (pathRelative (pathDirname ctx.originModulePath)
              (stubAbsolutePath env.projectRoot (nodeStubContents name))) platform with
        | ok v => rw [hbb] at h; simp [Except.map] at h
        | error e2 =>
          rw [hbb] at h
          simp [Except.map] at h
          exact hb _ _ _ k mm (by rw [hbb, h])
      · rw [hw] at h
        rw [if_neg (by decide), if_pos rfl] at h
        cases hbb : env.baseResolve ctx
            (pathRelative (pathDirname ctx.originModulePath)
              (stubAbsolutePath env.projectRoot (weakStubContents name))) platform with
        | ok v => rw [hbb] at h; simp [Except.map] at h
        | error e2 =>
          rw [hbb] at h
          simp [Except.map] at h
          exact hb _ _ _ k mm (by rw [hbb, h])

/-! ## C7: first match wins; unrecognized kinds raise, recognized never do -/

/-- C7: the custom-externals step evaluates the declared rules in order and
the first matching rule decides — `empty` returns an empty module, `weak`
and `node` strictly resolve the synthesized stub, any other replace kind
raises the misconfiguration error; and when every declared replace kind is
recognized (and the underlying resolver cannot fabricate that error), the
error branch is unreachable. -/
theorem custom_externals_first_match_policy (env : ResolverEnv)
    (ctx : ResolutionContext) (name : String) (platform : Option String) :
    (∀ pre r post,
      env.externals = pre ++ r :: post →
      (∀ q ∈ pre, q.ruleMatches ctx name platform = false) →
      r.ruleMatches ctx name platform = true →
      customExternalsResolver env ctx name platform
        = if r.replace = "empty" then .ok (some .empty)
          else if r.replace = "weak" then
            Except.map some (env.baseResolve ctx
              (pathRelative (pathDirname ctx.originModulePath)
                (stubAbsolutePath env.projectRoot (weakStubContents name))) platform)
          else if r.replace = "node" then
            Except.map some (env.baseResolve ctx
              (pathRelative (pathDirname ctx.originModulePath)
                (stubAbsolutePath env.projectRoot (nodeStubContents name))) platform)
          else .error (.invalidExternal r.replace name)) ∧
    ((∀ r ∈ env.externals, r.replace = "empty" ∨ r.replace = "node" ∨ r.replace = "weak") →
      (∀ c m p k mm, env.baseResolve c m p ≠ .error (.invalidExternal k mm)) →
      ∀ k mm, customExternalsResolver env ctx name platform
        ≠ .error (.invalidExternal k mm)) := by
  constructor
  · intro pre r post hdecomp hpre hr
    unfold customExternalsResolver
    rw [hdecomp]
    exact resolveCustomExternal_first_match env ctx name platform pre r post hpre hr
  · intro hl hb k mm
    unfold customExternalsResolver
    exact resolveCustomExternal_no_invalid env ctx name platform hb env.externals hl k mm

/-- C7 witness: the first declared rule matched by `react` in a `node`
environment decides with its `node` kind, and with the declared (all
recognized) kinds the misconfiguration error cannot surface. -/
theorem custom_externals_first_match_policy_witness :
    customExternalsResolver (sampleEnv okBase) serverCtx "react" (some "ios")
      = Except.map some ((sampleEnv okBase).baseResolve serverCtx
          (pathRelative (pathDirname serverCtx.originModulePath)
            (stubAbsolutePath (sampleEnv okBase).projectRoot (nodeStubContents "react")))
          (some "ios")) ∧
    customExternalsResolver (sampleEnv okBase) serverCtx "react" (some "ios")
      ≠ .error (.invalidExternal "bogus" "react") := by
  have h := custom_externals_first_match_policy (sampleEnv okBase) serverCtx "react" (some "ios")
  constructor
  · have h1 := h.1 [] ⟨nodeExternalsPredicate, "node"⟩ [⟨clientBoundaryPredicate, "weak"⟩]
      rfl (fun q hq => absurd hq (List.not_mem_nil q)) rfl
    rw [h1]
    rfl
  · refine h.2 ?_ ?_ "bogus" "react"
    · intro r hr
      simp only [sampleEnv, declaredExternals, List.mem_cons, List.not_mem_nil, or_false] at hr
      rcases hr with rfl | rfl
      · exact Or.inr (Or.inl rfl)
      · exact Or.inr (Or.inr rfl)
    · intro c m p k mm hcontra
      exact Except.noConfusion hcontra

/-! ## C1: the synthesized stub path is independent of the requester -/

/-- C1: for a specifier handled by a first-matching `node` or `weak`
external rule, the synthesized stub has one absolute path determined only
by the project root and the generated stub contents; each requester merely
receives that same path relativized against its own directory. -/
theorem external_stub_path_requester_independent (env : ResolverEnv)
    (ctx1 ctx2 : ResolutionContext) (name : String) (plat1 plat2 : Option String)
    (kind : String) (pre1 post1 pre2 post2 : List ExternalRule) (r1 r2 : ExternalRule)
    (hd1 : env.externals = pre1 ++ r1 :: post1)
    (hpre1 : ∀ q ∈ pre1, q.ruleMatches ctx1 name plat1 = false)
    (hr1 : r1.ruleMatches ctx1 name plat1 = true)
    (hk1 : r1.replace = kind)
    (hd2 : env.externals = pre2 ++ r2 :: post2)
    (hpre2 : ∀ q ∈ pre2, q.ruleMatches ctx2 name plat2 = false)
    (hr2 : r2.ruleMatches ctx2 name plat2 = true)
    (hk2 : r2.replace = kind)
    (hkind : kind = "node" ∨ kind = "weak") :
    ∃ absPath : String,
      absPath = stubAbsolutePath env.projectRoot (stubContentsFor kind name) ∧
      customExternalsResolver env ctx1 name plat1
        = Except.map some (env.baseResolve ctx1
            (pathRelative (pathDirname ctx1.originModulePath) absPath) plat1) ∧
      customExternalsResolver env ctx2 name plat2
        = Except.map some (env.baseResolve ctx2
            (pathRelative (pathDirname ctx2.originModulePath) absPath) plat2) := by
  refine ⟨stubAbsolutePath env.projectRoot (stubContentsFor kind name), rfl, ?_, ?_⟩
  · unfold customExternalsResolver
    rw [hd1, resolveCustomExternal_first_match env ctx1 name plat1 pre1 r1 post1 hpre1 hr1,
      hk1]
    rcases hkind with h | h <;> subst h
    · rw [if_neg (by decide), if_neg (by decide), if_pos rfl]
      unfold stubContentsFor
      rw [if_neg (by decide)]
    · rw [if_neg (by decide), if_pos rfl]
      unfold stubContentsFor
      rw [if_pos rfl]
  · unfold customExternalsResolver
    rw [hd2, resolveCustomExternal_first_match env ctx2 name plat2 pre2 r2 post2 hpre2 hr2,
      hk2]
    rcases hkind with h | h <;> subst h
    · rw [if_neg (by decide), if_neg (by decide), if_pos rfl]
      unfold stubContentsFor
      rw [if_neg (by decide)]
    · rw [if_neg (by decide), if_pos rfl]
      unfold stubContentsFor
      rw [if_pos rfl]

/-- A second server context requesting from a different (nested) file. -/
def serverCtxB : ResolutionContext :=
  { serverCtx with originModulePath := "/project/src/nested/Other.js" }

/-- C1 witness: two requesters of `react` at different files share one
absolute stub path. -/
theorem external_stub_path_requester_independent_witness :
    ∃ absPath : String,
      absPath = stubAbsolutePath (sampleEnv okBase).projectRoot
        (stubContentsFor "node" "react") ∧
      customExternalsResolver (sampleEnv okBase) serverCtx "react" (some "ios")
        = Except.map some ((sampleEnv okBase).baseResolve serverCtx
            (pathRelative (pathDirname serverCtx.originModulePath) absPath) (some "ios")) ∧
      customExternalsResolver (sampleEnv okBase) serverCtxB "react" (some "android")
        = Except.map some ((sampleEnv okBase).baseResolve serverCtxB
            (pathRelative (pathDirname serverCtxB.originModulePath) absPath)
            (some "android")) :=
  external_stub_path_requester_independent (sampleEnv okBase) serverCtx serverCtxB "react"
    (some "ios") (some "android") "node"
    [] [⟨clientBoundaryPredicate, "weak"⟩] [] [⟨clientBoundaryPredicate, "weak"⟩]
    ⟨nodeExternalsPredicate, "node"⟩ ⟨nodeExternalsPredicate, "node"⟩
    rfl (fun q hq => absurd hq (List.not_mem_nil q)) rfl rfl
    rfl (fun q hq => absurd hq (List.not_mem_nil q)) rfl rfl (Or.inl rfl)

/-! ## C5: platform-exact aliases decide before universal aliases -/

theorem resolveUniversalAlias_first (env : ResolverEnv) (ctx : ResolutionContext)
    (name : String) (platform : Option String) (pre : List UniversalAlias)
    (u : UniversalAlias) (post : List UniversalAlias) (caps : List String)
    (hpre : ∀ v ∈ pre, v.matchCaptures name = none)
    (hu : u.matchCaptures name = some caps) :
    resolveUniversalAlias env ctx name platform (pre ++ u :: post)
      = Except.map some (env.baseResolve ctx (applyTemplate u.template caps) platform) := by
  induction pre with
  | nil =>
    rw [List.nil_append]
    have hstep : resolveUniversalAlias env ctx name platform (u :: post)
        = match u.matchCaptures name with
          | some caps2 =>
            match getStrictResolver env ctx platform (applyTemplate u.template caps2) with
            | .ok r => .ok (some r)
            | .error e => .error e
          | none => resolveUniversalAlias env ctx name platform post := rfl
    rw [hstep, hu]
    cases hb : env.baseResolve ctx (applyTemplate u.template caps) platform <;>
      simp [getStrictResolver, hb, Except.map]
  | cons v vs ih =>
    rw [List.cons_append]
    have hstep : resolveUniversalAlias env ctx name platform (v :: (vs ++ u :: post))
        = match v.matchCaptures name with
          | some caps2 =>
            match getStrictResolver env ctx platform (applyTemplate v.template caps2) with
            | .ok r => .ok (some r)
            | .error e => .error e
          | none => resolveUniversalAlias env ctx name platform (vs ++ u :: post) := rfl
    rw [hstep, hpre v (List.mem_cons_self v vs)]
    exact ih (fun w hw => hpre w (List.mem_cons_of_mem v hw))

/-- C5: a specifier matching a platform-exact alias resolves to exactly the
strict resolution of the alias target in the same context, independently of
the universal alias table (which is consulted only on a miss, first match
winning). -/
theorem platform_exact_alias_resolution (env : ResolverEnv) (ctx : ResolutionContext)
    (name : String) (platform : Option String) :
    (∀ target, lookupAlias platform name = some target →
      basicAliasResolver env ctx name platform
        = Except.map some (env.baseResolve ctx target platform) ∧
      ∀ ua : List UniversalAlias,
        basicAliasResolver { env with universalAliases := ua } ctx name platform
          = basicAliasResolver env ctx name platform) ∧
    (lookupAlias platform name = none →
      ∀ pre u post caps, env.universalAliases = pre ++ u :: post →
        (∀ v ∈ pre, v.matchCaptures name = none) →
        u.matchCaptures name = some caps →
        basicAliasResolver env ctx name platform
          = Except.map some (env.baseResolve ctx
              (applyTemplate u.template caps) platform)) := by
  constructor
  · intro target htgt
    constructor
    · unfold basicAliasResolver
      rw [htgt]
      cases hb : env.baseResolve ctx target platform <;>
        simp [getStrictResolver, hb, Except.map]
    · intro ua
      unfold basicAliasResolver
      rw [htgt]
      rfl
  · intro hnone pre u post caps hdecomp hpre hu
    unfold basicAliasResolver
    rw [hnone, hdecomp]
    exact resolveUniversalAlias_first env ctx name platform pre u post caps hpre hu

/-- C5 witness: `react-native` on web resolves exactly as `react-native-web`
does. -/
theorem platform_exact_alias_resolution_witness :
    basicAliasResolver (sampleEnv okBase) clientCtx "react-native" (some "web")
      = Except.map some ((sampleEnv okBase).baseResolve clientCtx "react-native-web"
          (some "web")) :=
  ((platform_exact_alias_resolution (sampleEnv okBase) clientCtx "react-native"
    (some "web")).1 "react-native-web" rfl).1

/-! ## C6: the dev-only production-module skip -/

/-- C6: outside dev mode the production-module skip never decides; in dev
mode a production react-native renderer requested from inside
`node_modules/react-native` on a non-web platform, or a
`*.production(.min).js` module requested from inside a react or scheduler
package, short-circuits the whole pipeline to `Empty` before any other
strategy runs. -/
theorem dev_only_production_skip (env : ResolverEnv) (ctx : ResolutionContext)
    (name : String) (platform : Option String) :
    (ctx.dev = false → devProductionSkipResolver ctx name platform = .ok none) ∧
    (ctx.dev = true →
      ((platform ≠ some "web" ∧ matchNodeModulesReactNative ctx.originModulePath = true ∧
          matchReactNativeRendererProd name = true) ∨
        (matchProductionJs name = true ∧
          matchNodeModulesReactOrScheduler ctx.originModulePath = true)) →
      devProductionSkipResolver ctx name platform = .ok (some .empty) ∧
      resolvePipeline env ctx name platform = .ok (some .empty)) := by
  constructor
  · intro hdev
    unfold devProductionSkipResolver
    rw [hdev]
    rfl
  · intro hdev hcond
    have hskip : devProductionSkipResolver ctx name platform = .ok (some .empty) := by
      unfold devProductionSkipResolver
      rw [hdev]
      rcases hcond with ⟨hp, hnm, hrr⟩ | ⟨hpj, hsc⟩
      · simp [hp, hnm, hrr]
      · simp [hpj, hsc]
    refine ⟨hskip, ?_⟩
    unfold resolvePipeline expoResolvers
    rw [runResolvers_cons_some _ _ _ _ _ _ hskip]

/-- A dev-mode context requesting from inside `node_modules/react-native`. -/
def rendererCtx : ResolutionContext :=
  { originModulePath :=
      "/project/node_modules/react-native/Libraries/Renderer/shims/ReactNative.js"
    customResolverOptions :=
      { environment := some "client", exporting := false, clientboundary := false }
    dev := true }

/-- The client context with dev mode disabled. -/
def devOffCtx : ResolutionContext := { clientCtx with dev := false }

/-- C6 witness: dev off never decides; dev on short-circuits a production
renderer import to `Empty`. -/
theorem dev_only_production_skip_witness :
    devProductionSkipResolver devOffCtx "./ReactFabric-prod.js" (some "android")
      = .ok none ∧
    resolvePipeline (sampleEnv okBase) rendererCtx "./ReactFabric-prod.js" (some "android")
      = .ok (some .empty) :=
  ⟨(dev_only_production_skip (sampleEnv okBase) devOffCtx "./ReactFabric-prod.js"
      (some "android")).1 rfl,
   ((dev_only_production_skip (sampleEnv okBase) rendererCtx "./ReactFabric-prod.js"
      (some "android")).2 rfl (Or.inl ⟨by decide, by decide, by decide⟩)).2⟩

/-! ## C8: a null tsconfig-paths resolve function is a no-op strategy -/

/-- C8: when the active tsconfig-paths resolve function is null — as after
a reload that produced an absent config or an empty paths map — the
path-alias strategy returns null on every request and the pipeline behaves
exactly as the chain without that strategy. -/
theorem tsconfig_paths_disabled_fallthrough (env : ResolverEnv) (ctx : ResolutionContext)
    (name : String) (platform : Option String) (baseUrl : Option String) :
    (reloadedTsConfigResolve env none = none ∧
      reloadedTsConfigResolve env (some { paths := [], baseUrl := baseUrl }) = none) ∧
    (env.tsConfigResolve = none → tsconfigPathsResolver env ctx name platform = .ok none) ∧
    (env.tsConfigResolve = none →
      resolvePipeline env ctx name platform
        = runResolvers [devProductionSkipResolver, nodeExternalsResolver env,
            customExternalsResolver env, basicAliasResolver env,
            eventTargetShimResolver env, postResolutionResolver env] ctx name platform) := by
  refine ⟨⟨rfl, rfl⟩, fun hts => ?_, fun hts => ?_⟩
  · unfold tsconfigPathsResolver
    rw [hts]
  · have h2 : tsconfigPathsResolver env ctx name platform = .ok none := by
      unfold tsconfigPathsResolver
      rw [hts]
    unfold resolvePipeline expoResolvers
    cases hd : devProductionSkipResolver ctx name platform with
    | error e =>
      rw [runResolvers_cons_error _ _ _ _ _ _ hd, runResolvers_cons_error _ _ _ _ _ _ hd]
    | ok o =>
      cases o with
      | some res =>
        rw [runResolvers_cons_some _ _ _ _ _ _ hd, runResolvers_cons_some _ _ _ _ _ _ hd]
      | none =>
        rw [runResolvers_cons_none _ _ _ _ _ hd, runResolvers_cons_none _ _ _ _ _ h2,
          runResolvers_cons_none _ _ _ _ _ hd]

/-- C8 witness: the disabled strategy at a concrete request. -/
theorem tsconfig_paths_disabled_fallthrough_witness :
    reloadedTsConfigResolve (sampleEnv okBase) none = none ∧
    tsconfigPathsResolver (sampleEnv okBase) clientCtx "os" (some "web") = .ok none :=
  ⟨(tsconfig_paths_disabled_fallthrough (sampleEnv okBase) clientCtx "os" (some "web")
      none).1.1,
   (tsconfig_paths_disabled_fallthrough (sampleEnv okBase) clientCtx "os" (some "web")
      none).2.1 rfl⟩

end Expo
